import Mathlib

/-!
Verification of the ant-design `Tooltip` wrapper component
(`src/components/tooltip/index.tsx`) against its natural-language
specification.  JavaScript values, objects and React elements are given a
shallow embedding; every definition mirrors the corresponding source
construct.
-/

set_option autoImplicit false

namespace AntTooltip

/-- JavaScript primitive values as they appear in style objects. -/
inductive JsVal
  | undef
  | nullv
  | str (s : String)
  | num (n : Int)
  | boolv (b : Bool)
deriving DecidableEq, Repr

/-- A JavaScript object, modelled as an association list of key/value
entries; lookup returns the first matching entry. -/
abbrev Obj := List (String × JsVal)

/-- Property lookup `obj[k]`, `none` when the key is missing. -/
def oget : Obj → String → Option JsVal
  | [], _ => none
  | p :: rest, k => if p.1 = k then some p.2 else oget rest k

/-- The JavaScript `k in obj` operator: key presence. -/
def ohas (o : Obj) (k : String) : Bool := (oget o k).isSome

/-- The JavaScript `delete obj[k]` operation. -/
def odel : Obj → String → Obj
  | [], _ => []
  | p :: rest, k => if p.1 = k then odel rest k else p :: odel rest k

/-- Property assignment `obj[k] = v`. -/
def oset (o : Obj) (k : String) (v : JsVal) : Obj := odel o k ++ [(k, v)]

/-- The keys of an object. -/
def keysOf (o : Obj) : List String := o.map (fun p => p.1)

/-- Object spread `\x7b ...a, ...b \x7d`: the entries of `b` written over
`a` in order. -/
def ospread (a b : Obj) : Obj := b.foldl (fun acc p => oset acc p.1 p.2) a

/-- React node content, as accepted by the `title` and `overlay` props.
`undef` doubles as "prop absent"; `node` stands for an element or a
render function (always truthy). -/
inductive Content
  | undef
  | nullv
  | str (s : String)
  | num (n : Int)
  | boolv (b : Bool)
  | node (id : Nat)
deriving DecidableEq, Repr

/-- JavaScript truthiness of a `Content` value. -/
def truthy : Content → Bool
  | .undef => false
  | .nullv => false
  | .str s => s != ""
  | .num n => n != 0
  | .boolv b => b
  | .node _ => true

/-- The props record of the `Tooltip` component, restricted to the fields
the verified logic reads.  A field of type `Option (Option Bool)` encodes
JavaScript's two-level absence: `none` is "key not in props", `some none`
is "key present with value `undefined`", `some (some b)` a boolean value.
Callback props carry an identifier (`Nat`) standing for the caller's
function. -/
structure Props where
  title : Content := Content.undef
  overlay : Content := Content.undef
  openProp : Option (Option Bool) := none
  visible : Option (Option Bool) := none
  defaultOpen : Option (Option Bool) := none
  defaultVisible : Option (Option Bool) := none
  onOpenChange : Option (Option Nat) := none
  onVisibleChange : Option (Option Nat) := none
  afterOpenChange : Option (Option Nat) := none
  afterVisibleChange : Option (Option Nat) := none
deriving DecidableEq, Repr

/-- Collapse JavaScript's two-level absence: a present boolean value, or
`none` for both "key absent" and "value undefined". -/
def ojoin {A : Type} (x : Option (Option A)) : Option A :=
  match x with
  | some y => y
  | none => none

/-- Source `isNoTitle`: `!title && !overlay && title !== 0`. -/
def isNoTitle (p : Props) : Bool :=
  !truthy p.title && !truthy p.overlay && p.title != Content.num 0

/-- Source `getOverlay`: `if (title === 0) return title; return overlay || title || ostr;`
where `ostr` is the empty string. -/
def getOverlay (p : Props) : Content :=
  if p.title == Content.num 0 then p.title
  else if truthy p.overlay then p.overlay
  else if truthy p.title then p.title
  else Content.str ""

/-- The `value` argument of `useMergedState`:
`props.open !== undefined ? props.open : props.visible`. -/
def tooltipValue (p : Props) : Option Bool :=
  match ojoin p.openProp with
  | some b => some b
  | none => ojoin p.visible

/-- The `defaultValue` argument of `useMergedState`:
`props.defaultOpen !== undefined ? props.defaultOpen : props.defaultVisible`. -/
def tooltipDefault (p : Props) : Option Bool :=
  match ojoin p.defaultOpen with
  | some b => some b
  | none => ojoin p.defaultVisible

/-- Initial inner state of `useMergedState false holder` where `holder`
carries `tooltipValue` and `tooltipDefault`: the controlled value if
defined, else the default value if defined, else `false`. -/
def initialInner (p : Props) : Bool :=
  match tooltipValue p with
  | some v => v
  | none => (tooltipDefault p).getD false

/-- The merged `open` value returned by `useMergedState`: the controlled
value when defined, the inner state otherwise. -/
def mergedOpen (p : Props) (inner : Bool) : Bool :=
  (tooltipValue p).getD inner

/-- Source `tempOpen` computation:
`let tempOpen = open; if (!(openK in props) && !(visibleK in props) && isNoTitle()) tempOpen = false;`
where `openK`/`visibleK` are the two controlled-prop keys. -/
def tempOpen (p : Props) (inner : Bool) : Bool :=
  if !p.openProp.isSome && !p.visible.isSome && isNoTitle p then false
  else mergedOpen p inner

/-- Observable effects of the internal visibility-change handler:
a `setOpen` state update or an invocation of a caller-supplied callback. -/
inductive Effect
  | setO (b : Bool)
  | call (f : Nat) (arg : Bool)
deriving DecidableEq, Repr

/-- Optional-chaining call `f?.(arg)`. -/
def optCall (f : Option (Option Nat)) (arg : Bool) : List Effect :=
  match ojoin f with
  | some g => [Effect.call g arg]
  | none => []

/-- Source internal `onOpenChange` handler:
`setOpen(isNoTitle() ? false : vis); if (!isNoTitle()) \x7b props.onOpenChange?.(vis); props.onVisibleChange?.(vis); \x7d`. -/
def onOpenChangeHandler (p : Props) (vis : Bool) : List Effect :=
  Effect.setO (if isNoTitle p then false else vis) ::
    (if !isNoTitle p then optCall p.onOpenChange vis ++ optCall p.onVisibleChange vis
     else [])

/-- The slice of configuration the wrapper hands to the `RcTooltip`
positioning primitive that the claims are about: the rendered `visible`
flag, the overlay content, and the forwarded `afterVisibleChange`
callback (passed through by the props spread; `afterOpenChange` is not
mapped onto it anywhere in the source). -/
structure RcConfig where
  visible : Bool
  overlay : Content
  afterVisibleChange : Option Nat
deriving DecidableEq, Repr

/-- The configuration of the rendered `RcTooltip` element for the given
props and inner state. -/
def renderRc (p : Props) (inner : Bool) : RcConfig :=
  { visible := tempOpen p inner
    overlay := getOverlay p
    afterVisibleChange := ojoin p.afterVisibleChange }

/-- The `type` of a React element: a native tag name, an ant-design
component (carrying the internal `__ANT_BUTTON` / `__ANT_SWITCH` /
`__ANT_RADIO` markers; on a tag the markers read as `undefined`, never
`=== true`), or the Fragment symbol. -/
inductive ElType
  | tag (s : String)
  | comp (antButton antSwitch antRadio : Bool)
  | fragmentType
deriving DecidableEq, Repr

/-- A React element, restricted to the props the verified logic reads. -/
structure Element where
  type : ElType
  disabled : Bool := false
  loading : Bool := false
  block : Bool := false
  style : Obj := []
  className : Option String := none
deriving DecidableEq, Repr

/-- `elementType.__ANT_BUTTON === true`. -/
def elTypeAntButton : ElType → Bool
  | .comp b _ _ => b
  | _ => false

/-- `elementType.__ANT_SWITCH === true`. -/
def elTypeAntSwitch : ElType → Bool
  | .comp _ s _ => s
  | _ => false

/-- `elementType.__ANT_RADIO === true`. -/
def elTypeAntRadio : ElType → Bool
  | .comp _ _ r => r
  | _ => false

/-- The guard of `getDisabledCompatibleChildren`: disabled (ant or native)
button, disabled-or-loading ant switch, or disabled ant radio. -/
def shouldWrap (e : Element) : Bool :=
  ((elTypeAntButton e.type || e.type == ElType.tag "button") && e.disabled) ||
    (elTypeAntSwitch e.type && (e.disabled || e.loading)) ||
    (elTypeAntRadio e.type && e.disabled)

/-- The layout-related style keys picked up to the wrapper span. -/
def layoutKeys : List String :=
  ["position", "left", "right", "top", "bottom", "float", "display", "zIndex"]

/-- Loop body of `splitObject`, folding
`keys.forEach(key => \x7b if (obj && key in obj) \x7b picked[key] = obj[key]; delete omitted[key]; \x7d \x7d)`
over the accumulated `(picked, omitted)` pair. -/
def splitGo (obj : Obj) : List String → Obj × Obj → Obj × Obj
  | [], acc => acc
  | key :: rest, acc =>
    splitGo obj rest
      (if ohas obj key then
        (oset acc.1 key ((oget obj key).getD JsVal.undef), odel acc.2 key)
      else acc)

/-- Source `splitObject`: starts from `picked = \x7b\x7d` and
`omitted = \x7b ...obj \x7d` and runs the key loop. -/
def splitObject (obj : Obj) (keys : List String) : Obj × Obj :=
  splitGo obj keys ([], obj)

/-- The wrapper span's class: `classNames(element.props.className, wrapperCls)`
with `wrapperCls` the `-disabled-compatible-wrapper` suffix class. -/
def wrapperClassName (cls : Option String) (prefixCls : String) : String :=
  match cls with
  | some c =>
    if c != "" then c ++ " " ++ (prefixCls ++ "-disabled-compatible-wrapper")
    else prefixCls ++ "-disabled-compatible-wrapper"
  | none => prefixCls ++ "-disabled-compatible-wrapper"

/-- Result of rendering the child: either wrapped in a compatibility span
(with the span's style and class and the re-rendered inner element), or
the element returned unchanged. -/
inductive RenderedChild
  | wrapped (spanStyle : Obj) (spanClassName : String) (inner : Element)
  | plain (e : Element)
deriving DecidableEq, Repr

/-- Source `getDisabledCompatibleChildren`: when the guard holds, split the
child's style over the layout keys, build
`spanStyle = \x7b display: inlineBlock, ...picked, cursor: notAllowed, width: block ? full : null \x7d`
and `buttonStyle = \x7b ...omitted, pointerEvents: none \x7d`, clone the child with
`buttonStyle` and a `null` className inside the span; otherwise return the
element unchanged. -/
def getDisabledCompatibleChildren (e : Element) (prefixCls : String) : RenderedChild :=
  if shouldWrap e then
    let po := splitObject e.style layoutKeys
    let spanStyle :=
      oset
        (oset (ospread [("display", JsVal.str "inline-block")] po.1)
          "cursor" (JsVal.str "not-allowed"))
        "width" (if e.block then JsVal.str "100%" else JsVal.nullv)
    let buttonStyle := oset po.2 "pointerEvents" (JsVal.str "none")
    RenderedChild.wrapped spanStyle (wrapperClassName e.className prefixCls)
      { e with style := buttonStyle, className := none }
  else RenderedChild.plain e

/-- The `children` value handed to the component, before normalization. -/
inductive ChildInput
  | elem (e : Element)
  | textNode (s : String)
  | numNode (n : Int)
  | nullNode
  | arrayNode
deriving DecidableEq, Repr

/-- `isValidElement(children)`. -/
def isValidElementB : ChildInput → Bool
  | .elem _ => true
  | _ => false

/-- `isFragment(children)`: a valid element whose type is the Fragment
symbol. -/
def isFragmentB : ChildInput → Bool
  | .elem e => e.type == ElType.fragmentType
  | _ => false

/-- The bare `span` element the component wraps non-element or fragment
children in. -/
def spanEl : Element := { type := ElType.tag "span" }

/-- Source child normalization:
`isValidElement(children) && !isFragment(children) ? children : span-wrapped children`. -/
def normalizeChild (c : ChildInput) : Element :=
  if isValidElementB c && !isFragmentB c then
    match c with
    | .elem e => e
    | _ => spanEl
  else spanEl

/-- Modelled from the spec: the preset color palette `PresetColorTypes`
lives in `_util/colors`, which is not among the sources; the spec calls it
"a named color identifier from a fixed palette" and names `blue` as a
preset token.  The palette is ant-design's documented 13 preset colors. -/
def presetColors : List String :=
  ["pink", "red", "yellow", "orange", "cyan", "green", "blue", "purple",
   "geekblue", "magenta", "volcano", "gold", "lime"]

/-- Source `PresetColorRegex.test(color)`: the regex is the anchored
alternation of the palette entries, each optionally suffixed
`-inverse`. -/
def presetColorTest (c : String) : Bool :=
  presetColors.any (fun p => c == p || c == p ++ "-inverse")

/-- JavaScript truthiness of the optional `color` string prop. -/
def colorTruthy : Option String → Bool
  | some c => c != ""
  | none => false

/-- Source `customOverlayClassName` as the list of classes produced by
`classNames(overlayClassName, \x7b rtlCls: direction === rtl, presetCls: color && PresetColorRegex.test(color) \x7d)`. -/
def customOverlayClasses (overlayClassName : Option String) (direction : Option String)
    (prefixCls : String) (color : Option String) : List String :=
  (match overlayClassName with
   | some c => if c != "" then [c] else []
   | none => []) ++
  (if direction == some "rtl" then [prefixCls ++ "-rtl"] else []) ++
  (if colorTruthy color && presetColorTest ((color).getD "") then
    [prefixCls ++ "-" ++ (color).getD ""]
  else [])

/-- Source `formattedOverlayInnerStyle`: starts as `overlayInnerStyle` and
gains an inline `background` only when `color` is truthy and not a preset
match. -/
def formattedOverlayInnerStyle (color : Option String) (ois : Obj) : Obj :=
  match color with
  | some c =>
    if c != "" && !presetColorTest c then oset ois "background" (JsVal.str c)
    else ois
  | none => ois

/-- Source `arrowContentStyle`: `undefined` unless `color` is truthy and
not a preset match, in which case it is the object holding the arrow
background custom property. -/
def arrowContentStyleOf (color : Option String) : Option Obj :=
  match color with
  | some c =>
    if c != "" && !presetColorTest c then
      some [("--antd-arrow-background-color", JsVal.str c)]
    else none
  | none => none

/-- Alignment result reported by the positioning primitive: the matched
alignment points and the pixel offset `[x, y]`. -/
structure AlignInfo where
  points : String × String
  offset : Int × Int
deriving DecidableEq, Repr

/-- The popup node's bounding rectangle. -/
structure Rect where
  width : Int
  height : Int
deriving DecidableEq, Repr

/-- A placement table: placement name to its pair of alignment points. -/
abbrev PlacementTable := List (String × (String × String))

/-- Source reverse lookup:
`Object.keys(placements).find(key => placements[key].points[0] === align.points[0] && placements[key].points[1] === align.points[1])`. -/
def findPlacement (tbl : PlacementTable) (pts : String × String) : Option String :=
  (tbl.find? (fun p => p.2.1 == pts.1 && p.2.2 == pts.2)).map (fun p => p.1)

/-- One component of the CSS `transform-origin`: the untouched `50%`
default or a pixel value. -/
inductive OriginVal
  | pct50
  | px (v : Int)
deriving DecidableEq, Repr

/-- `needle` occurs at the head of `hay`. -/
def leadsWith : List Char → List Char → Bool
  | [], _ => true
  | _ :: _, [] => false
  | a :: as, b :: bs => a == b && leadsWith as bs

/-- `needle` occurs somewhere in `hay`. -/
def occursIn : List Char → List Char → Bool
  | _, [] => true
  | [], _ :: _ => false
  | h :: hs, n :: ns => leadsWith (n :: ns) (h :: hs) || occursIn hs (n :: ns)

/-- `s.indexOf(sub) >= 0`: substring containment. -/
def hasSub (s sub : String) : Bool := occursIn s.data sub.data

/-- Source `onPopupAlign`: reverse-look up the placement name from the
alignment points; on failure return without touching the node (`none`);
otherwise compute the `(left, top)` transform-origin pair from the
matched name, the node rectangle and the alignment offset. -/
def onPopupAlign (tbl : PlacementTable) (align : AlignInfo) (rect : Rect) :
    Option (OriginVal × OriginVal) :=
  match findPlacement tbl align.points with
  | none => none
  | some placement =>
    let top :=
      if hasSub placement "top" || hasSub placement "Bottom" then
        OriginVal.px (rect.height - align.offset.2)
      else if hasSub placement "Top" || hasSub placement "bottom" then
        OriginVal.px (-align.offset.2)
      else OriginVal.pct50
    let left :=
      if hasSub placement "left" || hasSub placement "Right" then
        OriginVal.px (rect.width - align.offset.1)
      else if hasSub placement "right" || hasSub placement "Left" then
        OriginVal.px (-align.offset.1)
      else OriginVal.pct50
    some (left, top)

theorem oget_append_none {a : Obj} (b : Obj) {k : String} (h : oget a k = none) :
    oget (a ++ b) k = oget b k := by
  induction a with
  | nil => rfl
  | cons p rest ih =>
    by_cases hpk : p.1 = k
    · simp [oget, hpk] at h
    · simp only [List.cons_append, oget, if_neg hpk] at h ⊢
      exact ih h

theorem oget_append_some {a : Obj} (b : Obj) {k : String} {v : JsVal}
    (h : oget a k = some v) : oget (a ++ b) k = some v := by
  induction a with
  | nil => simp [oget] at h
  | cons p rest ih =>
    by_cases hpk : p.1 = k
    · simp only [List.cons_append, oget, if_pos hpk] at h ⊢
      exact h
    · simp only [List.cons_append, oget, if_neg hpk] at h ⊢
      exact ih h

theorem oget_odel (o : Obj) (k k2 : String) :
    oget (odel o k) k2 = if k2 = k then none else oget o k2 := by
  induction o with
  | nil => simp [odel, oget]
  | cons p rest ih =>
    by_cases hpk : p.1 = k
    · rw [odel, if_pos hpk, ih]
      by_cases h2 : k2 = k
      · rw [if_pos h2, if_pos h2]
      · rw [if_neg h2, if_neg h2, oget,
          if_neg (fun hh : p.1 = k2 => h2 (hh.symm.trans hpk))]
    · rw [odel, if_neg hpk, oget]
      by_cases hp2 : p.1 = k2
      · rw [if_pos hp2, if_neg (fun h2 : k2 = k => hpk (hp2.trans h2)), oget, if_pos hp2]
      · rw [if_neg hp2, ih]
        by_cases h2 : k2 = k
        · rw [if_pos h2, if_pos h2]
        · rw [if_neg h2, if_neg h2, oget, if_neg hp2]

theorem keysOf_cons (p : String × JsVal) (rest : Obj) :
    keysOf (p :: rest) = p.1 :: keysOf rest := rfl

theorem oget_oset (o : Obj) (k : String) (v : JsVal) (k2 : String) :
    oget (oset o k v) k2 = if k2 = k then some v else oget o k2 := by
  rw [oset]
  by_cases h2 : k2 = k
  · subst h2
    have hnone : oget (odel o k2) k2 = none := by rw [oget_odel, if_pos rfl]
    rw [oget_append_none _ hnone, if_pos rfl]
    simp [oget]
  · have hdel : oget (odel o k) k2 = oget o k2 := by rw [oget_odel, if_neg h2]
    rw [if_neg h2]
    cases hv : oget o k2 with
    | some w => rw [oget_append_some _ (hdel.trans hv)]
    | none =>
      rw [oget_append_none _ (hdel.trans hv)]
      have hkk : ¬((k, v).1 = k2) := fun hh => h2 (by simpa using hh.symm)
      rw [oget, if_neg hkk]
      rfl

theorem oget_eq_none_of_not_mem (o : Obj) (k : String) (h : k ∉ keysOf o) :
    oget o k = none := by
  induction o with
  | nil => rfl
  | cons p rest ih =>
    simp only [keysOf, List.map_cons, List.mem_cons, not_or] at h
    rw [oget, if_neg (fun hh => h.1 hh.symm)]
    exact ih (by simpa [keysOf] using h.2)

theorem oget_ospread (b a : Obj) (k : String) (h : (keysOf b).Nodup) :
    oget (ospread a b) k =
      match oget b k with
      | some v => some v
      | none => oget a k := by
  induction b generalizing a with
  | nil => rfl
  | cons p rest ih =>
    rw [keysOf, List.map_cons] at h
    obtain ⟨hpnot, hnd⟩ := List.nodup_cons.mp h
    have hstep : ospread a (p :: rest) = ospread (oset a p.1 p.2) rest := by
      rw [ospread, List.foldl_cons, ospread]
    rw [hstep, ih _ (by simpa [keysOf] using hnd)]
    by_cases hpk : p.1 = k
    · have hr : oget rest k = none := by
        apply oget_eq_none_of_not_mem
        intro hm
        exact hpnot (by simpa [keysOf, hpk] using hm)
      rw [hr, oget, if_pos hpk, oget_oset, if_pos hpk.symm]
    · cases hv : oget rest k with
      | none => rw [oget, if_neg hpk, hv, oget_oset, if_neg (fun hh : k = p.1 => hpk hh.symm)]
      | some w => rw [oget, if_neg hpk, hv]

theorem keysOf_odel_sublist (o : Obj) (k : String) :
    List.Sublist (keysOf (odel o k)) (keysOf o) := by
  induction o with
  | nil => simp [odel, keysOf]
  | cons p rest ih =>
    by_cases hpk : p.1 = k
    · rw [odel, if_pos hpk, keysOf_cons]
      exact ih.trans (List.sublist_cons_self _ _)
    · rw [odel, if_neg hpk, keysOf_cons, keysOf_cons]
      exact ih.cons₂ p.1

theorem not_mem_keysOf_odel (o : Obj) (k : String) : k ∉ keysOf (odel o k) := by
  induction o with
  | nil => simp [odel, keysOf]
  | cons p rest ih =>
    by_cases hpk : p.1 = k
    · rw [odel, if_pos hpk]
      exact ih
    · rw [odel, if_neg hpk]
      simp only [keysOf, List.map_cons, List.mem_cons, not_or]
      exact ⟨fun hh => hpk hh.symm, by simpa [keysOf] using ih⟩

theorem nodup_keysOf_oset (o : Obj) (k : String) (v : JsVal)
    (h : (keysOf o).Nodup) : (keysOf (oset o k v)).Nodup := by
  rw [oset, keysOf, List.map_append]
  apply List.Nodup.append
  · exact (h.sublist (keysOf_odel_sublist o k) : _)
  · exact List.nodup_singleton k
  · intro x hx hx2
    have hxk : x = k := by simpa using hx2
    subst hxk
    exact not_mem_keysOf_odel o x (by simpa [keysOf] using hx)

theorem splitGo_fst_oget (obj : Obj) (keys : List String) :
    ∀ (acc : Obj × Obj) (k : String),
      oget (splitGo obj keys acc).1 k =
        if k ∈ keys ∧ ohas obj k = true then oget obj k else oget acc.1 k := by
  induction keys with
  | nil =>
    intro acc k
    simp [splitGo]
  | cons key rest ih =>
    intro acc k
    rw [splitGo, ih]
    by_cases hk : k ∈ rest ∧ ohas obj k = true
    · have hmem : k ∈ key :: rest ∧ ohas obj k = true :=
        ⟨List.mem_cons_of_mem _ hk.1, hk.2⟩
      rw [if_pos hk, if_pos hmem]
    · rw [if_neg hk]
      by_cases hkey : k = key
      · subst hkey
        by_cases hh : ohas obj k = true
        · have hmem : k ∈ k :: rest ∧ ohas obj k = true :=
            ⟨List.mem_cons_self _ _, hh⟩
          rw [if_pos hmem, if_pos hh]
          show oget (oset acc.1 k ((oget obj k).getD JsVal.undef)) k = oget obj k
          rw [oget_oset, if_pos rfl]
          cases hv : oget obj k with
          | none => rw [ohas, hv] at hh; simp at hh
          | some w => simp [hv]
        · have hnm : ¬(k ∈ k :: rest ∧ ohas obj k = true) := fun hc => hh hc.2
          rw [if_neg hnm, if_neg hh]
      · have hnc : ¬(k ∈ key :: rest ∧ ohas obj k = true) := fun hc =>
          hk ⟨(List.mem_cons.mp hc.1).resolve_left hkey, hc.2⟩
        rw [if_neg hnc]
        by_cases hh : ohas obj key = true
        · rw [if_pos hh]
          show oget (oset acc.1 key ((oget obj key).getD JsVal.undef)) k = oget acc.1 k
          rw [oget_oset, if_neg hkey]
        · rw [if_neg hh]

theorem splitGo_snd_oget (obj : Obj) (keys : List String) :
    ∀ (acc : Obj × Obj) (k : String),
      oget (splitGo obj keys acc).2 k =
        if k ∈ keys ∧ ohas obj k = true then none else oget acc.2 k := by
  induction keys with
  | nil =>
    intro acc k
    simp [splitGo]
  | cons key rest ih =>
    intro acc k
    rw [splitGo, ih]
    by_cases hk : k ∈ rest ∧ ohas obj k = true
    · have hmem : k ∈ key :: rest ∧ ohas obj k = true :=
        ⟨List.mem_cons_of_mem _ hk.1, hk.2⟩
      rw [if_pos hk, if_pos hmem]
    · rw [if_neg hk]
      by_cases hkey : k = key
      · subst hkey
        by_cases hh : ohas obj k = true
        · have hmem : k ∈ k :: rest ∧ ohas obj k = true :=
            ⟨List.mem_cons_self _ _, hh⟩
          rw [if_pos hmem, if_pos hh]
          show oget (odel acc.2 k) k = none
          rw [oget_odel, if_pos rfl]
        · have hnm : ¬(k ∈ k :: rest ∧ ohas obj k = true) := fun hc => hh hc.2
          rw [if_neg hnm, if_neg hh]
      · have hnc : ¬(k ∈ key :: rest ∧ ohas obj k = true) := fun hc =>
          hk ⟨(List.mem_cons.mp hc.1).resolve_left hkey, hc.2⟩
        rw [if_neg hnc]
        by_cases hh : ohas obj key = true
        · rw [if_pos hh]
          show oget (odel acc.2 key) k = oget acc.2 k
          rw [oget_odel, if_neg hkey]
        · rw [if_neg hh]

theorem splitGo_fst_nodup (obj : Obj) (keys : List String) :
    ∀ (acc : Obj × Obj), (keysOf acc.1).Nodup →
      (keysOf (splitGo obj keys acc).1).Nodup := by
  induction keys with
  | nil =>
    intro acc h
    exact h
  | cons key rest ih =>
    intro acc h
    rw [splitGo]
    apply ih
    by_cases hh : ohas obj key = true
    · rw [if_pos hh]
      exact nodup_keysOf_oset _ _ _ h
    · rw [if_neg hh]
      exact h

theorem splitObject_fst_oget (obj : Obj) (keys : List String) (k : String) :
    oget (splitObject obj keys).1 k =
      if k ∈ keys ∧ ohas obj k = true then oget obj k else none := by
  rw [splitObject, splitGo_fst_oget]
  by_cases hc : k ∈ keys ∧ ohas obj k = true
  · rw [if_pos hc, if_pos hc]
  · rw [if_neg hc, if_neg hc]
    rfl

theorem splitObject_snd_oget (obj : Obj) (keys : List String) (k : String) :
    oget (splitObject obj keys).2 k =
      if k ∈ keys ∧ ohas obj k = true then none else oget obj k := by
  rw [splitObject, splitGo_snd_oget]

theorem splitObject_fst_nodup (obj : Obj) (keys : List String) :
    (keysOf (splitObject obj keys).1).Nodup := by
  rw [splitObject]
  exact splitGo_fst_nodup obj keys _ (by simp [keysOf])

def pC1 : Props := { openProp := some (some true) }

/-- C1 counterexample: a props record with no `title` and no `overlay`
(so `isNoTitle` holds) but with the controlled prop `open = true` renders
the popup primitive with open state `true`, not `false`: the source only
forces closed when neither the `open` key nor the `visible` key is
present in the props. -/
theorem C1_counterexample :
    isNoTitle pC1 = true ∧ (renderRc pC1 false).visible = true := by
  exact ⟨rfl, rfl⟩

/-- C1 (amended): for every props record in which both `title` and
`overlay` are absent and in which neither the `open` key nor the
`visible` key is present, the open state passed to the rendered popup
primitive is `false`, for every internal state value. -/
theorem C1_theorem (p : Props) (inner : Bool)
    (ht : p.title = Content.undef) (ho : p.overlay = Content.undef)
    (hop : p.openProp = none) (hv : p.visible = none) :
    (renderRc p inner).visible = false := by
  have hnt : isNoTitle p = true := by rw [isNoTitle, ht, ho]; rfl
  simp [renderRc, tempOpen, hop, hv, hnt]

theorem C1_witness : (renderRc ({} : Props) true).visible = false :=
  C1_theorem {} true rfl rfl rfl rfl

def pC2 : Props := { title := Content.str "a", overlay := Content.str "b" }

/-- C2 counterexample: with `title = "a"` and `overlay = "b"` both
supplied (and `title` not the literal `0`), the content payload rendered
into the overlay is the `overlay` value `"b"`, not the `title` value
`"a"`: `getOverlay` evaluates `overlay || title` with `overlay` first. -/
theorem C2_counterexample :
    (renderRc pC2 false).overlay = Content.str "b" ∧
      pC2.title = Content.str "a" ∧ Content.str "b" ≠ Content.str "a" := by
  refine ⟨rfl, rfl, ?_⟩
  decide

/-- C2 (amended): for every props record in which both `title` and
`overlay` are supplied as truthy values and `title` is not the literal
`0`, the content payload rendered into the overlay is the `overlay`
value: the legacy `overlay` prop takes precedence over `title`. -/
theorem C2_theorem (p : Props) (ht : truthy p.title = true)
    (ho : truthy p.overlay = true) (h0 : p.title ≠ Content.num 0) :
    getOverlay p = p.overlay := by
  have h1 : (p.title == Content.num 0) = false := by
    rw [beq_eq_false_iff_ne]
    exact h0
  simp [getOverlay, h1, ho]

theorem C2_witness : getOverlay pC2 = Content.str "b" :=
  C2_theorem pC2 rfl rfl (by decide)

/-- C3: the literal numeric `0` as `title` is present, displayable
content: `isNoTitle` is `false`, the open state handed to the popup
primitive is not forced closed (it equals the merged open value), and the
rendered overlay content is the value `0`, whatever the `overlay` prop
holds. -/
theorem C3_theorem (p : Props) (inner : Bool) (h : p.title = Content.num 0) :
    isNoTitle p = false ∧
      (renderRc p inner).visible = mergedOpen p inner ∧
      (renderRc p inner).overlay = Content.num 0 := by
  have hnt : isNoTitle p = false := by
    rw [isNoTitle, h]
    simp [truthy]
  refine ⟨hnt, ?_, ?_⟩
  · simp [renderRc, tempOpen, hnt]
  · simp [renderRc, getOverlay, h]

theorem C3_witness :
    isNoTitle { title := Content.num 0 } = false ∧
      (renderRc { title := Content.num 0 } true).visible =
        mergedOpen { title := Content.num 0 } true ∧
      (renderRc { title := Content.num 0 } true).overlay = Content.num 0 :=
  C3_theorem { title := Content.num 0 } true rfl

/-- C4: for every visibility value `vis` reported by the positioning
primitive, if content is absent the handler only sets the internal state
to `false` (so neither callback is invoked, in particular never with
`true`); if content is present it sets the state to `vis` and forwards
`vis` first to `onOpenChange`, then to `onVisibleChange` (each when
supplied). -/
theorem C4_theorem (p : Props) (vis : Bool) :
    (isNoTitle p = true →
      onOpenChangeHandler p vis = [Effect.setO false] ∧
        ∀ f b, Effect.call f b ∉ onOpenChangeHandler p vis) ∧
    (isNoTitle p = false →
      onOpenChangeHandler p vis =
        Effect.setO vis ::
          (optCall p.onOpenChange vis ++ optCall p.onVisibleChange vis)) := by
  constructor
  · intro h
    refine ⟨by simp [onOpenChangeHandler, h], ?_⟩
    intro f b
    simp [onOpenChangeHandler, h]
  · intro h
    simp [onOpenChangeHandler, h]

def pC4a : Props := { onOpenChange := some (some 1), onVisibleChange := some (some 2) }

def pC4b : Props :=
  { title := Content.str "x", onOpenChange := some (some 1),
    onVisibleChange := some (some 2) }

theorem C4_witness :
    onOpenChangeHandler pC4a true = [Effect.setO false] ∧
      onOpenChangeHandler pC4b true =
        [Effect.setO true, Effect.call 1 true, Effect.call 2 true] :=
  ⟨((C4_theorem pC4a true).1 rfl).1, (C4_theorem pC4b true).2 rfl⟩

/-- C5: when both members of an alias pair are supplied, the
non-deprecated member wins value resolution: the merged controlled value
uses `open` over `visible`, the merged default uses `defaultOpen` over
`defaultVisible`; and a content-present visibility change invokes both
the modern and the legacy callback. -/
theorem C5_theorem (p : Props) (a b av bv : Bool) (f g : Nat) (vis : Bool) :
    (ojoin p.openProp = some a → ojoin p.visible = some av →
      tooltipValue p = some a) ∧
    (ojoin p.defaultOpen = some b → ojoin p.defaultVisible = some bv →
      tooltipDefault p = some b) ∧
    (isNoTitle p = false → ojoin p.onOpenChange = some f →
      ojoin p.onVisibleChange = some g →
        onOpenChangeHandler p vis =
          [Effect.setO vis, Effect.call f vis, Effect.call g vis]) := by
  refine ⟨?_, ?_, ?_⟩
  · intro h1 _
    simp [tooltipValue, h1]
  · intro h1 _
    simp [tooltipDefault, h1]
  · intro hnt h1 h2
    simp [onOpenChangeHandler, hnt, optCall, h1, h2]

def pC5 : Props :=
  { title := Content.str "t", openProp := some (some true),
    visible := some (some false), defaultOpen := some (some false),
    defaultVisible := some (some true), onOpenChange := some (some 1),
    onVisibleChange := some (some 2) }

theorem C5_witness :
    tooltipValue pC5 = some true ∧ tooltipDefault pC5 = some false ∧
      onOpenChangeHandler pC5 false =
        [Effect.setO false, Effect.call 1 false, Effect.call 2 false] :=
  ⟨(C5_theorem pC5 true false false true 1 2 false).1 rfl rfl,
   (C5_theorem pC5 true false false true 1 2 false).2.1 rfl rfl,
   (C5_theorem pC5 true false false true 1 2 false).2.2 rfl rfl rfl⟩

def pC6modern : Props := { title := Content.str "x", afterOpenChange := some (some 7) }

def pC6legacy : Props := { title := Content.str "x", afterVisibleChange := some (some 7) }

/-- C6: three of the four alias pairs do behave identically when only one
member is supplied, but the fourth does not: the component forwards
`afterVisibleChange` to the popup primitive untouched and never maps
`afterOpenChange` onto it, so a props record supplying only the modern
`afterOpenChange` hands the primitive no after-change callback at all,
while the legacy-only record hands it the callback — contradicting the
deprecation notice in the component's own prop documentation and
development warning. -/
theorem C6_theorem :
    (renderRc pC6legacy false).afterVisibleChange = some 7 ∧
    (renderRc pC6modern false).afterVisibleChange = none ∧
    pC6modern.afterOpenChange = some (some 7) ∧
    (∀ v inner : Bool,
      renderRc { title := Content.str "x", openProp := some (some v) } inner =
        renderRc { title := Content.str "x", visible := some (some v) } inner) ∧
    (∀ v : Bool,
      initialInner { title := Content.str "x", defaultOpen := some (some v) } =
        initialInner { title := Content.str "x", defaultVisible := some (some v) }) ∧
    (∀ (f : Nat) (vis : Bool),
      onOpenChangeHandler { title := Content.str "x", onOpenChange := some (some f) } vis =
        onOpenChangeHandler { title := Content.str "x", onVisibleChange := some (some f) } vis) := by
  refine ⟨rfl, rfl, rfl, ?_, ?_, ?_⟩
  · intro v inner
    rfl
  · intro v
    rfl
  · intro f vis
    rfl

/-- C7: a disabled (ant or native) button, a disabled-or-loading ant
switch, or a disabled ant radio child is wrapped in a span that still
receives pointer events (no `pointerEvents` entry of its own), carries
the layout style keys picked from the child's style, while the child is
re-rendered with `pointerEvents` set to `none`, stripped of the layout
keys and keeping every other style key; any other child is returned
unchanged with no wrapper. -/
theorem C7_theorem (e : Element) (pfx : String) :
    (shouldWrap e = true →
      ∀ sSt sCls inner,
        getDisabledCompatibleChildren e pfx = RenderedChild.wrapped sSt sCls inner →
          oget sSt "pointerEvents" = none ∧
          (∀ k, k ∈ layoutKeys → ohas e.style k = true → oget sSt k = oget e.style k) ∧
          oget inner.style "pointerEvents" = some (JsVal.str "none") ∧
          (∀ k, k ∈ layoutKeys → oget inner.style k = none) ∧
          (∀ k, k ∉ layoutKeys → ¬(k = "pointerEvents") →
            oget inner.style k = oget e.style k) ∧
          inner.type = e.type) ∧
    (shouldWrap e = false →
      getDisabledCompatibleChildren e pfx = RenderedChild.plain e) := by
  have hnd : (keysOf (splitObject e.style layoutKeys).1).Nodup :=
    splitObject_fst_nodup e.style layoutKeys
  constructor
  · intro hw sSt sCls inner heq
    rw [getDisabledCompatibleChildren, if_pos hw] at heq
    injection heq with h1 h2 h3
    subst h1
    subst h3
    refine ⟨?_, ?_, ?_, ?_, ?_, rfl⟩
    · rw [oget_oset, if_neg (by decide : ¬("pointerEvents" = "width")),
        oget_oset, if_neg (by decide : ¬("pointerEvents" = "cursor")),
        oget_ospread _ _ _ hnd, splitObject_fst_oget,
        if_neg (fun hc => absurd hc.1 (by decide))]
      rfl
    · intro k hk hhas
      have hkw : ¬(k = "width") := fun hh => by
        subst hh
        exact absurd hk (by decide)
      have hkc : ¬(k = "cursor") := fun hh => by
        subst hh
        exact absurd hk (by decide)
      rw [oget_oset, if_neg hkw, oget_oset, if_neg hkc,
        oget_ospread _ _ _ hnd, splitObject_fst_oget, if_pos ⟨hk, hhas⟩]
      cases hv : oget e.style k with
      | none =>
        rw [ohas, hv] at hhas
        simp at hhas
      | some w => rfl
    · rw [oget_oset, if_pos rfl]
    · intro k hk
      have hkp : ¬(k = "pointerEvents") := fun hh => by
        subst hh
        exact absurd hk (by decide)
      rw [oget_oset, if_neg hkp, splitObject_snd_oget]
      by_cases hh : ohas e.style k = true
      · rw [if_pos ⟨hk, hh⟩]
      · rw [if_neg (fun hc => hh hc.2)]
        cases hv : oget e.style k with
        | none => rfl
        | some w =>
          rw [ohas, hv] at hh
          simp at hh
    · intro k hk hkp
      rw [oget_oset, if_neg hkp, splitObject_snd_oget,
        if_neg (fun hc => hk hc.1)]
  · intro h
    rw [getDisabledCompatibleChildren, if_neg (by simp [h])]

def eC7btn : Element :=
  { type := ElType.tag "button", disabled := true,
    style := [("position", JsVal.str "absolute"), ("margin", JsVal.str "4px")],
    className := some "btn" }

def eC7plain : Element := { type := ElType.tag "a" }

def rC7spanStyle : Obj :=
  match getDisabledCompatibleChildren eC7btn "ant-tooltip" with
  | RenderedChild.wrapped s _ _ => s
  | RenderedChild.plain _ => []

def rC7cls : String :=
  match getDisabledCompatibleChildren eC7btn "ant-tooltip" with
  | RenderedChild.wrapped _ c _ => c
  | RenderedChild.plain _ => ""

def rC7inner : Element :=
  match getDisabledCompatibleChildren eC7btn "ant-tooltip" with
  | RenderedChild.wrapped _ _ i => i
  | RenderedChild.plain e2 => e2

theorem C7_witness :
    oget rC7spanStyle "position" = some (JsVal.str "absolute") ∧
      oget rC7inner.style "pointerEvents" = some (JsVal.str "none") ∧
      oget rC7inner.style "position" = none ∧
      oget rC7inner.style "margin" = some (JsVal.str "4px") ∧
      getDisabledCompatibleChildren eC7plain "ant-tooltip" =
        RenderedChild.plain eC7plain := by
  have heq : getDisabledCompatibleChildren eC7btn "ant-tooltip" =
      RenderedChild.wrapped rC7spanStyle rC7cls rC7inner := rfl
  have h := (C7_theorem eC7btn "ant-tooltip").1 rfl rC7spanStyle rC7cls rC7inner heq
  refine ⟨?_, h.2.2.1, ?_, ?_, (C7_theorem eC7plain "ant-tooltip").2 rfl⟩
  · rw [h.2.1 "position" (by decide) (by decide)]
    rfl
  · exact h.2.2.2.1 "position" (by decide)
  · rw [h.2.2.2.2.1 "margin" (by decide) (by decide)]
    rfl

/-- C8: a truthy color value that matches a preset token (optionally
suffixed `-inverse`) adds the modifier class to the overlay class list
and injects no inline background and no arrow custom property; a truthy
color that does not match adds no such class and is injected as inline
`background` on the overlay inner style and as the
`--antd-arrow-background-color` custom property on the arrow content. -/
theorem C8_theorem (c : String) (ois : Obj) (pfx : String) (hne : ¬(c = "")) :
    (presetColorTest c = true →
      (pfx ++ "-" ++ c) ∈ customOverlayClasses none none pfx (some c) ∧
        formattedOverlayInnerStyle (some c) ois = ois ∧
        arrowContentStyleOf (some c) = none) ∧
    (presetColorTest c = false →
      customOverlayClasses none none pfx (some c) = [] ∧
        oget (formattedOverlayInnerStyle (some c) ois) "background" =
          some (JsVal.str c) ∧
        (∀ k, ¬(k = "background") →
          oget (formattedOverlayInnerStyle (some c) ois) k = oget ois k) ∧
        arrowContentStyleOf (some c) =
          some [("--antd-arrow-background-color", JsVal.str c)]) := by
  have hb : (c != "") = true := by simpa using hne
  constructor
  · intro h
    refine ⟨?_, ?_, ?_⟩
    · simp [customOverlayClasses, colorTruthy, hb, h]
    · simp [formattedOverlayInnerStyle, h]
    · simp [arrowContentStyleOf, h]
  · intro h
    refine ⟨?_, ?_, ?_, ?_⟩
    · simp [customOverlayClasses, colorTruthy, hb, h]
    · simp only [formattedOverlayInnerStyle, h, hb, Bool.not_false, Bool.and_self,
        if_true]
      rw [oget_oset, if_pos rfl]
    · intro k hk
      simp only [formattedOverlayInnerStyle, h, hb, Bool.not_false, Bool.and_self,
        if_true]
      rw [oget_oset, if_neg hk]
    · simp [arrowContentStyleOf, h, hb]

theorem C8_witness :
    ("ant-tooltip" ++ "-" ++ "blue") ∈
        customOverlayClasses none none "ant-tooltip" (some "blue") ∧
      formattedOverlayInnerStyle (some "blue") [("padding", JsVal.str "4px")] =
        [("padding", JsVal.str "4px")] ∧
      customOverlayClasses none none "ant-tooltip" (some "#123456") = [] ∧
      oget (formattedOverlayInnerStyle (some "#123456") [("padding", JsVal.str "4px")])
          "background" = some (JsVal.str "#123456") ∧
      arrowContentStyleOf (some "#123456") =
        some [("--antd-arrow-background-color", JsVal.str "#123456")] := by
  have h1 := ( C8_theorem "blue" [("padding", JsVal.str "4px")] "ant-tooltip"
    (by decide)).1 (by decide)
  have h2 := ( C8_theorem "#123456" [("padding", JsVal.str "4px")] "ant-tooltip"
    (by decide)).2 (by decide)
  exact ⟨h1.1, h1.2.1, h2.1, h2.2.1, h2.2.2.2⟩

/-- C9: on a popup-align event, if no placement in the resolved table has
both alignment points equal to the reported points the node is left
unmodified; otherwise the matched name decides each transform-origin
component: far edge minus offset when the name contains `top` or
`Bottom` (resp. `left` or `Right`), negated offset for the complementary
set containing `Top` or `bottom` (resp. `right` or `Left`), untouched
`50%` otherwise. -/
theorem C9_theorem (tbl : PlacementTable) (align : AlignInfo) (rect : Rect) :
    (findPlacement tbl align.points = none →
      onPopupAlign tbl align rect = none) ∧
    (∀ name, findPlacement tbl align.points = some name →
      ∃ l t, onPopupAlign tbl align rect = some (l, t) ∧
        ((hasSub name "top" || hasSub name "Bottom") = true →
          t = OriginVal.px (rect.height - align.offset.2)) ∧
        ((hasSub name "top" || hasSub name "Bottom") = false →
          (hasSub name "Top" || hasSub name "bottom") = true →
            t = OriginVal.px (-align.offset.2)) ∧
        ((hasSub name "top" || hasSub name "Bottom") = false →
          (hasSub name "Top" || hasSub name "bottom") = false →
            t = OriginVal.pct50) ∧
        ((hasSub name "left" || hasSub name "Right") = true →
          l = OriginVal.px (rect.width - align.offset.1)) ∧
        ((hasSub name "left" || hasSub name "Right") = false →
          (hasSub name "right" || hasSub name "Left") = true →
            l = OriginVal.px (-align.offset.1)) ∧
        ((hasSub name "left" || hasSub name "Right") = false →
          (hasSub name "right" || hasSub name "Left") = false →
            l = OriginVal.pct50)) := by
  constructor
  · intro h
    rw [onPopupAlign, h]
  · intro name h
    rw [onPopupAlign, h]
    refine ⟨_, _, rfl, ?_, ?_, ?_, ?_, ?_, ?_⟩
    · intro h1
      simp [h1]
    · intro h1 h2
      simp [h1, h2]
    · intro h1 h2
      simp [h1, h2]
    · intro h1
      simp [h1]
    · intro h1 h2
      simp [h1, h2]
    · intro h1 h2
      simp [h1, h2]

def tblC9 : PlacementTable := [("top", ("bc", "tc")), ("leftTop", ("cr", "tl"))]

def alignC9 : AlignInfo := { points := ("bc", "tc"), offset := (3, 5) }

def rectC9 : Rect := { width := 100, height := 50 }

theorem C9_witness :
    onPopupAlign tblC9 alignC9 rectC9 = some (OriginVal.pct50, OriginVal.px 45) ∧
      onPopupAlign tblC9 { points := ("zz", "zz"), offset := (3, 5) } rectC9 = none := by
  constructor
  · obtain ⟨l, t, heq, htop, _h2, _h3, _h4, _h5, hl3⟩ :=
      (C9_theorem tblC9 alignC9 rectC9).2 "top" rfl
    rw [htop (by decide), hl3 (by decide) (by decide)] at heq
    simpa [rectC9, alignC9] using heq
  · exact (C9_theorem tblC9 { points := ("zz", "zz"), offset := (3, 5) } rectC9).1 rfl

/-- C10: a children value that is not a valid element, or is a fragment,
is wrapped in a bare span before any further processing; the element
handed on to the disabled-compatibility check and the open-class
assignment is never a fragment, and a valid non-fragment element passes
through unchanged. -/
theorem C10_theorem (c : ChildInput) :
    ((isValidElementB c = false ∨ isFragmentB c = true) →
      normalizeChild c = spanEl) ∧
      ¬((normalizeChild c).type = ElType.fragmentType) ∧
      (∀ e2, c = ChildInput.elem e2 → isFragmentB c = false →
        normalizeChild c = e2) := by
  refine ⟨?_, ?_, ?_⟩
  · intro h
    cases c with
    | elem e2 =>
      cases h with
      | inl h1 => simp [isValidElementB] at h1
      | inr h2 => simp [normalizeChild, isValidElementB, h2]
    | textNode s => rfl
    | numNode n => rfl
    | nullNode => rfl
    | arrayNode => rfl
  · cases c with
    | elem e2 =>
      by_cases hf : isFragmentB (ChildInput.elem e2) = true
      · simp [normalizeChild, isValidElementB, hf, spanEl]
      · have hf2 : (e2.type == ElType.fragmentType) = false := by
          simpa [isFragmentB] using hf
        simp only [normalizeChild, isValidElementB, isFragmentB, hf2,
          Bool.not_false, Bool.and_self, if_true]
        intro hc
        rw [hc] at hf2
        simp at hf2
    | textNode s => simp [normalizeChild, spanEl]
    | numNode n => simp [normalizeChild, spanEl]
    | nullNode => simp [normalizeChild, spanEl]
    | arrayNode => simp [normalizeChild, spanEl]
  · intro e2 hc hf
    subst hc
    have hf2 : (e2.type == ElType.fragmentType) = false := by
      simpa [isFragmentB] using hf
    simp [normalizeChild, isValidElementB, isFragmentB, hf2]

theorem C10_witness :
    normalizeChild (ChildInput.elem { type := ElType.fragmentType }) = spanEl ∧
      normalizeChild (ChildInput.textNode "hi") = spanEl ∧
      normalizeChild (ChildInput.elem spanEl) = spanEl := by
  refine ⟨(C10_theorem _).1 (Or.inr rfl), (C10_theorem _).1 (Or.inl rfl), ?_⟩
  exact (C10_theorem _).2.2 spanEl rfl rfl

end AntTooltip
